import Mathlib

/-!
# Verification of the RoadPay webhook event-processing subsystem

Shallow embedding of `src/roadpay/webhooks.py` (`WebhookProcessor`) and
`src/roadpay/events.py` (`EventRouter`, `DisputeEventHandler`) together with
proofs of the spec's testable properties about idempotent delivery, the
bounded retry engine, dead-letter tracking and verification failures.

Handlers may raise and may behave differently on different invocation
attempts; a handler is therefore embedded as a function from the event and
the 0-based attempt index to `Except String Unit` (`.error msg` models a
raised exception with message `msg`).  Wall-clock time (`time.time()`) is
passed in as an explicit `now : Nat` argument.
-/

set_option autoImplicit false

deriving instance DecidableEq for Except

namespace RoadPay

/-! ## Data model of `webhooks.py` -/

/-- The `WebhookEvent` dataclass of `webhooks.py`: the immutable envelope
(`id`, `type`, `data`, `created`) plus the mutable processing metadata
(`processed_at`, `attempts`, `last_error`). -/
structure WebhookEvent where
  id : String
  type : String
  data : String
  created : Nat
  processed_at : Option Nat := none
  attempts : Nat := 0
  last_error : Option String := none
deriving Repr, DecidableEq

/-- A registered handler callable.  `run ev a` is the outcome of calling the
handler on event `ev` during 0-based attempt `a`; `.error msg` models the
handler raising an exception rendered as `msg`. -/
structure Handler where
  name : String
  run : WebhookEvent → Nat → Except String Unit

/-- The mutable state of a `WebhookProcessor` instance
(`webhook_secret`, `max_retries`, `retry_delay`, `handlers`,
`event_log`, `failed_events`), with the constructor defaults of
`WebhookProcessor.__init__` (`max_retries=3`, `retry_delay=60`). -/
structure Processor where
  webhook_secret : String
  max_retries : Nat := 3
  retry_delay : Nat := 60
  handlers : List (String × List Handler) := []
  event_log : List WebhookEvent := []
  failed_events : List WebhookEvent := []

/-- Lookup `self.handlers.get(event.type, [])`. -/
def handlersFor (p : Processor) (t : String) : List Handler :=
  match p.handlers.find? (fun kv => kv.1 == t) with
  | some kv => kv.2
  | none => []

/-- Dict update `self.handlers[t].append(func)` on the association list:
append to the bucket of `t` if present, else create the bucket at the end
(the `if event_type.value not in self.handlers` branch of `on`). -/
def bucketAppend : List (String × List Handler) → String → Handler →
    List (String × List Handler)
  | [], t, h => [(t, [h])]
  | kv :: rest, t, h =>
    if kv.1 == t then (kv.1, kv.2 ++ [h]) :: rest
    else kv :: bucketAppend rest t h

/-- The `@processor.on(event_type)` decorator (`on` is reserved in Lean, so
the registration method is named `onRegister` here): appends `h` to the list
registered for `t`, creating the entry if absent. -/
def onRegister (p : Processor) (t : String) (h : Handler) : Processor :=
  { p with handlers := bucketAppend p.handlers t h }

/-- Result dict returned by the processor methods: a `status` string plus the
optional `event_id` / `type` / `errors` entries the source attaches. -/
structure WResult where
  status : String
  event_id : Option String := none
  type : Option String := none
  errors : List String := []
deriving Repr, DecidableEq

/-- Outcome of the inner `for attempt in range(self.max_retries)` loop for one
handler: the event after its mutations, whether the handler succeeded
(`break`), the error strings appended to `errors`, and the list of 0-based
attempt indices at which the handler was actually invoked. -/
structure AttemptOut where
  ev : WebhookEvent
  ok : Bool
  errors : List String
  invoked : List Nat

/-- The retry loop of `_process_event` for a single handler.  `fuel` is the
number of remaining attempts (`max_retries - a` at the top call), `a` the
0-based attempt index.  Each iteration sets `event.attempts = attempt + 1`,
invokes the handler, breaks on success and records `last_error` plus an
`errors` entry on failure. -/
def attemptLoop (h : Handler) : Nat → Nat → WebhookEvent → AttemptOut
  | 0, _, ev => ⟨ev, false, [], []⟩
  | fuel + 1, a, ev =>
    let ev1 := { ev with attempts := a + 1 }
    match h.run ev1 a with
    | Except.ok _ => ⟨ev1, true, [], [a]⟩
    | Except.error e =>
      let r := attemptLoop h fuel (a + 1) { ev1 with last_error := some e }
      ⟨r.ev, r.ok, (h.name ++ ": " ++ e) :: r.errors, a :: r.invoked⟩

/-- Outcome of the outer `for handler in handlers` loop: event after all
mutations, accumulated error strings, how many handlers exhausted all their
retries (each such handler appends the event to `failed_events` once in the
`for`-`else` branch), and the invocation trace as (handler index, attempt
index) pairs in chronological order. -/
structure LoopOut where
  ev : WebhookEvent
  errors : List String
  exhausted : Nat
  trace : List (Nat × Nat)

/-- The outer handler loop of `_process_event`. -/
def handlerLoop (maxR : Nat) : List Handler → Nat → WebhookEvent → LoopOut
  | [], _, ev => ⟨ev, [], 0, []⟩
  | h :: hs, idx, ev =>
    let r1 := attemptLoop h maxR 0 ev
    let r2 := handlerLoop maxR hs (idx + 1) r1.ev
    ⟨r2.ev, r1.errors ++ r2.errors, (if r1.ok then 0 else 1) + r2.exhausted,
      r1.invoked.map (fun a => (idx, a)) ++ r2.trace⟩

/-- Result of one processing step: the new processor state, the returned
status dict, and the chronological handler-invocation trace. -/
structure Step where
  state : Processor
  result : WResult
  trace : List (Nat × Nat)

/-- Embeds `WebhookProcessor._process_event`.  With no registered handlers the event
is logged as-is and `ignored` returned.  Otherwise every handler runs through
the retry loop; each exhausted handler appends the (aliased, finally-mutated)
event to `failed_events`; `processed_at` is set and the event appended to
`event_log`; the status is `partial_failure` iff any attempt of any handler
failed (the source tests `if errors:`), else `processed`. -/
def processEvent (p : Processor) (ev : WebhookEvent) (now : Nat) : Step :=
  match handlersFor p ev.type with
  | [] =>
    ⟨{ p with event_log := p.event_log ++ [ev] },
      { status := "ignored", type := some ev.type }, []⟩
  | h :: hs =>
    let r := handlerLoop p.max_retries (h :: hs) 0 ev
    let ev2 := { r.ev with processed_at := some now }
    let p1 := { p with
      failed_events := p.failed_events ++ List.replicate r.exhausted ev2,
      event_log := p.event_log ++ [ev2] }
    if r.errors.isEmpty then
      ⟨p1, { status := "processed", event_id := some ev.id }, r.trace⟩
    else
      ⟨p1, { status := "partial_failure", event_id := some ev.id, errors := r.errors }, r.trace⟩

/-- The inbound request to `WebhookProcessor.process`, abstracting the two
external verification steps: `sigFail` is a request on which
`verify_signature` returns `False` (covering both a malformed payload, i.e.
`ValueError`, and a signature mismatch), `badJson` a verified request whose
body `json.loads` rejects, and `parsed` a verified request parsed into the
envelope fields. -/
inductive Delivery where
  | sigFail
  | badJson
  | parsed (id type data : String) (created : Nat)

/-- A raised `fastapi.HTTPException`. -/
inductive HttpError where
  | httpException (status : Nat) (detail : String)
deriving Repr, DecidableEq

/-- Embeds `WebhookProcessor.process`: raise 400 on signature failure, 400 on
malformed JSON; build the event; return the `duplicate` dict if the id is
already in `event_log`; otherwise delegate to `_process_event`. -/
def process (p : Processor) (d : Delivery) (now : Nat) : Except HttpError Step :=
  match d with
  | Delivery.sigFail => Except.error (HttpError.httpException 400 "Invalid signature")
  | Delivery.badJson => Except.error (HttpError.httpException 400 "Invalid JSON")
  | Delivery.parsed id ty data created =>
    let ev : WebhookEvent := { id := id, type := ty, data := data, created := created }
    if p.event_log.any (fun e => e.id == ev.id) then
      Except.ok ⟨p, { status := "duplicate", event_id := some ev.id }, []⟩
    else
      Except.ok (processEvent p ev now)

/-- Embeds `WebhookProcessor.retry_failed`: pop the first `failed_events` entry with
the given id (`not_found` if absent), clear `attempts` and `last_error`, and
re-run `_process_event` on it. -/
def retryFailed (p : Processor) (eventId : String) (now : Nat) : Step :=
  match p.failed_events.find? (fun e => e.id == eventId) with
  | none => ⟨p, { status := "not_found" }, []⟩
  | some ev =>
    let p1 := { p with failed_events := p.failed_events.eraseP (fun e => e.id == eventId) }
    processEvent p1 { ev with attempts := 0, last_error := none } now

/-- Number of entries with the given event id (multiplicity in the
dead-letter list or the event log). -/
def countById (l : List WebhookEvent) (eventId : String) : Nat :=
  (l.filter (fun e => e.id == eventId)).length

/-- Specification helper: the trace consisting of, for each handler index
`idx, idx+1, ...` in order, a contiguous block of attempts `0, 1, ...` of the
length given by the corresponding entry of `counts`. -/
def orderedBlocks : Nat → List Nat → List (Nat × Nat)
  | _, [] => []
  | idx, c :: cs => (List.range c).map (fun a => (idx, a)) ++ orderedBlocks (idx + 1) cs

/-! ## Data model of `events.py` (`EventRouter` and the dispute handler) -/

/-- The values the router and its domain handlers write into the key-value
Storage collaborator: the `event:{id}` ledger entry written on success, the
`failed:{id}` record written before re-raising, the `dispute:{id}` record of
`DisputeEventHandler._handle_created`, or any other handler-written value. -/
inductive SVal where
  | processedRecord (event_id event_type : String) (processed_at : Nat)
      (success : Bool) (data : String)
  | failedRecord (event_id event_type error_ : String) (failed_at : Nat)
  | disputeRecord (charge_id : String) (amount : Int) (reason status : String)
      (evidence_due_by : Option Nat)
  | other (s : String)
deriving Repr, DecidableEq

/-- The Storage collaborator: a key-value map, later puts shadowing earlier
ones. -/
def Storage : Type := List (String × SVal)

/-- Embeds `storage.get(key)`. -/
def sget (st : Storage) (k : String) : Option SVal :=
  (st.find? (fun kv => kv.1 == k)).map Prod.snd

/-- Embeds `storage.put(key, value)`: the new binding shadows any earlier one. -/
def sput (st : Storage) (k : String) (v : SVal) : Storage :=
  (k, v) :: st

/-- Observable actions of a single `EventRouter.process_webhook` call, in
chronological order. -/
inductive Action where
  | get (key : String)
  | put (key : String)
  | handlerCall (event_id : String)
  | adminAlert
  | notify (kind : String)
deriving Repr, DecidableEq

/-- A verified `stripe.Event` as seen by the router: id, type and an opaque
payload (`event.data.object`). -/
structure SEvent where
  id : String
  type : String
  data : String
deriving Repr, DecidableEq

/-- Outcome of a domain handler's `handle`: the storage after its writes, its
action trace, and either its result payload or the exception it raised. -/
structure HStep where
  storage : Storage
  trace : List Action
  outcome : Except String String

/-- A domain handler object (`EventHandler.handle`). -/
structure RHandler where
  handle : SEvent → Storage → HStep

/-- The `EventRouter` state: the secret and the type-to-handler map.
`register_handler` binds one handler object per event type
(`self.handlers[event_type.value] = handler`, overwriting). -/
structure Router where
  webhook_secret : String
  handlers : List (String × RHandler)

/-- One `self.handlers[t] = h` assignment on the association list. -/
def setHandler (m : List (String × RHandler)) (t : String) (h : RHandler) :
    List (String × RHandler) :=
  if (m.find? (fun kv => kv.1 == t)).isSome then
    m.map (fun kv => if kv.1 == t then (kv.1, h) else kv)
  else
    m ++ [(t, h)]

/-- Embeds `EventRouter.register_handler`: bind `h` for every type it declares. -/
def registerHandler (r : Router) (types : List String) (h : RHandler) : Router :=
  { r with handlers := types.foldl (fun m t => setHandler m t h) r.handlers }

/-- Outcome of `stripe.Webhook.construct_event` on the raw request:
a verified event, a `ValueError` (malformed payload) or a
`SignatureVerificationError`. -/
inductive RVerify where
  | ok (e : SEvent)
  | invalidPayload
  | invalidSignature

/-- The dict returned by `EventRouter.process_webhook` (when it does not
raise): the 400/401 error dicts, `already_processed`, `unhandled`, or
`processed` with the handler's result. -/
inductive RResult where
  | errResp (error_ : String) (status : Nat)
  | alreadyProcessed (event_id : String)
  | unhandled (event_type : String)
  | processed (event_id : String) (result : String)
deriving Repr, DecidableEq

/-- Result of one `process_webhook` call: final storage, action trace, and
either the returned dict or the exception that propagated. -/
structure RStep where
  storage : Storage
  trace : List Action
  outcome : Except String RResult

/-- Embeds `EventRouter.process_webhook`: verify (returning the 400/401 dicts on
failure), look up `event:{id}` and short-circuit with `already_processed`,
acknowledge unhandled types, otherwise run the handler; on success persist
the `ProcessedEvent` ledger entry under `event:{id}` and return `processed`;
on a handler exception write `failed:{id}` and re-raise. -/
def processWebhook (r : Router) (v : RVerify) (now : Nat) (st : Storage) : RStep :=
  match v with
  | RVerify.invalidPayload => ⟨st, [], Except.ok (RResult.errResp "Invalid payload" 400)⟩
  | RVerify.invalidSignature => ⟨st, [], Except.ok (RResult.errResp "Invalid signature" 401)⟩
  | RVerify.ok ev =>
    let eventKey := "event:" ++ ev.id
    match sget st eventKey with
    | some _ => ⟨st, [Action.get eventKey], Except.ok (RResult.alreadyProcessed ev.id)⟩
    | none =>
      match r.handlers.find? (fun kv => kv.1 == ev.type) with
      | none => ⟨st, [Action.get eventKey], Except.ok (RResult.unhandled ev.type)⟩
      | some kv =>
        let hs := kv.2.handle ev st
        match hs.outcome with
        | Except.ok result =>
          ⟨sput hs.storage eventKey (SVal.processedRecord ev.id ev.type now true result),
            Action.get eventKey :: Action.handlerCall ev.id :: hs.trace ++ [Action.put eventKey],
            Except.ok (RResult.processed ev.id result)⟩
        | Except.error e =>
          ⟨sput hs.storage ("failed:" ++ ev.id) (SVal.failedRecord ev.id ev.type e now),
            Action.get eventKey :: Action.handlerCall ev.id :: hs.trace
              ++ [Action.put ("failed:" ++ ev.id)],
            Except.error e⟩

/-- A `stripe.Dispute` object as consumed by `DisputeEventHandler`. -/
structure Dispute where
  id : String
  charge : String
  amount : Int
  reason : String
  status : String
  evidence_due_by : Option Nat
deriving Repr, DecidableEq

/-- The notification collaborator as seen by the dispute handler:
either absent (`self.notifications is None`) or present with the given
outcome for `send_admin_alert` (`.error e` models the alert raising). -/
inductive NotifCfg where
  | noService
  | service (alertOutcome : Except String Unit)

/-- Embeds `DisputeEventHandler._handle_created`: store the dispute record under
`dispute:{id}` first, then (if a notification service is configured) send the
admin alert, which may raise; the result dict carries
`action = "dispute_alert_sent"`. -/
def handleDisputeCreated (notif : NotifCfg) (d : Dispute) (st : Storage) : HStep :=
  let key := "dispute:" ++ d.id
  let st1 := sput st key (SVal.disputeRecord d.charge d.amount d.reason d.status d.evidence_due_by)
  match notif with
  | NotifCfg.noService => ⟨st1, [Action.put key], Except.ok "dispute_alert_sent"⟩
  | NotifCfg.service (Except.ok _) =>
    ⟨st1, [Action.put key, Action.adminAlert], Except.ok "dispute_alert_sent"⟩
  | NotifCfg.service (Except.error e) =>
    ⟨st1, [Action.put key, Action.adminAlert], Except.error e⟩


/-! ## Concrete fixtures used in counterexamples and witnesses -/

/-- A handler that raises on every attempt. -/
def alwaysFail (msg : String) : Handler :=
  { name := "always_fail", run := fun _ _ => Except.error msg }

/-- A handler that succeeds on every attempt. -/
def alwaysOk : Handler :=
  { name := "always_ok", run := fun _ _ => Except.ok () }

/-- A handler that fails on (1-based) attempts `1 .. k-1` and succeeds on
attempt `k`, i.e. fails on 0-based attempts `a` with `a + 1 < k`. -/
def flaky (k : Nat) : Handler :=
  { name := "flaky",
    run := fun _ a => if a + 1 < k then Except.error "transient" else Except.ok () }

/-- An `invoice.paid` test event. -/
def cEv : WebhookEvent :=
  { id := "evt_1", type := "invoice.paid", data := "inv", created := 100 }

/-- Processor with a single handler for `invoice.paid` that fails once and
then succeeds (k = 2), with the default `max_retries = 3`. -/
def cProcFlaky2 : Processor :=
  { webhook_secret := "whsec", handlers := [("invoice.paid", [flaky 2])] }

/-- Processor with a single always-failing handler for `invoice.paid`. -/
def cProcFail : Processor :=
  { webhook_secret := "whsec", handlers := [("invoice.paid", [alwaysFail "boom"])] }

/-- A router domain handler that always raises. -/
def rFail : RHandler :=
  { handle := fun _ st => ⟨st, [], Except.error "boom"⟩ }

/-- A router domain handler that always succeeds without touching storage. -/
def rOk : RHandler :=
  { handle := fun _ st => ⟨st, [Action.notify "welcome"], Except.ok "handled"⟩ }

/-- A dispute-created test event for the router. -/
def rEv : SEvent :=
  { id := "evt_1", type := "charge.dispute.created", data := "dp_1" }

/-- Router with an always-raising handler for `charge.dispute.created`. -/
def rRouterFail : Router :=
  { webhook_secret := "whsec", handlers := [("charge.dispute.created", rFail)] }

/-- Router with an always-succeeding handler for `charge.dispute.created`. -/
def rRouterOk : Router :=
  { webhook_secret := "whsec", handlers := [("charge.dispute.created", rOk)] }

/-- True iff the action is a handler invocation. -/
def Action.isHandlerCall : Action → Bool
  | Action.handlerCall _ => true
  | _ => false

/-- Number of handler invocations recorded in a router trace. -/
def countHandlerCalls (tr : List Action) : Nat :=
  (tr.filter Action.isHandlerCall).length

/-- Processor with two handlers registered for `invoice.paid`: a failing one
first, a succeeding one second. -/
def cProcTwo : Processor :=
  { webhook_secret := "whsec",
    handlers := [("invoice.paid", [alwaysFail "boom", alwaysOk])] }

/-- Processor with no handlers and empty logs. -/
def cProcEmpty : Processor := { webhook_secret := "whsec" }

/-- A dead-letter entry from an earlier exhausted processing run. -/
def cFailedEv : WebhookEvent :=
  { id := "evt_7", type := "invoice.paid", data := "x", created := 50,
    processed_at := some 1, attempts := 3, last_error := some "boom" }

/-- Processor holding `cFailedEv` in its dead-letter set, whose handler for
`invoice.paid` fails its first attempt and succeeds on the second. -/
def cProcRetryFlaky : Processor :=
  { webhook_secret := "whsec",
    handlers := [("invoice.paid", [flaky 2])],
    failed_events := [cFailedEv] }

/-! ## Lemmas about the retry engine -/

/-- The retry loop never changes the event id. -/
theorem attemptLoop_ev_id (h : Handler) (fuel a : Nat) (ev : WebhookEvent) :
    (attemptLoop h fuel a ev).ev.id = ev.id := by
  induction fuel generalizing a ev with
  | zero => rfl
  | succ n ih =>
    simp only [attemptLoop]
    cases h.run { ev with attempts := a + 1 } a with
    | ok _ => rfl
    | error e => simpa using ih (a + 1) _

/-- The retry loop never changes the event type. -/
theorem attemptLoop_ev_type (h : Handler) (fuel a : Nat) (ev : WebhookEvent) :
    (attemptLoop h fuel a ev).ev.type = ev.type := by
  induction fuel generalizing a ev with
  | zero => rfl
  | succ n ih =>
    simp only [attemptLoop]
    cases h.run { ev with attempts := a + 1 } a with
    | ok _ => rfl
    | error e => simpa using ih (a + 1) _

/-- Against an always-raising handler the retry loop performs exactly `fuel`
invocations (attempts `a, a+1, ...`), collects `fuel` error entries, and ends
exhausted. -/
theorem attemptLoop_fail (h : Handler)
    (hf : ∀ e a, ∃ m, h.run e a = Except.error m) (fuel a : Nat) (ev : WebhookEvent) :
    ∃ ev' errs, attemptLoop h fuel a ev = ⟨ev', false, errs, List.range' a fuel⟩
      ∧ ev'.id = ev.id ∧ errs.length = fuel := by
  induction fuel generalizing a ev with
  | zero => exact ⟨ev, [], rfl, rfl, rfl⟩
  | succ n ih =>
    obtain ⟨m, hm⟩ := hf { ev with attempts := a + 1 } a
    obtain ⟨ev', errs, heq, hid, hlen⟩ :=
      ih (a + 1) { ev with attempts := a + 1, last_error := some m }
    refine ⟨ev', (h.name ++ ": " ++ m) :: errs, ?_, hid, by simp [hlen]⟩
    simp only [attemptLoop, hm, heq, List.range'_succ]

/-- Against a handler that fails on 0-based attempts `< k - 1` and succeeds
on attempt `k - 1`, the retry loop started at attempt `a < k` with enough
fuel succeeds after invoking attempts `a .. k-1` and collecting `k - 1 - a`
error entries. -/
theorem attemptLoop_succeeds (h : Handler) (k : Nat)
    (hf : ∀ e a, a + 1 < k → ∃ m, h.run e a = Except.error m)
    (hs : ∀ e, h.run e (k - 1) = Except.ok ())
    (fuel a : Nat) (ev : WebhookEvent) (ha : a + 1 ≤ k) (hfuel : k ≤ a + fuel) :
    ∃ ev' errs, attemptLoop h fuel a ev = ⟨ev', true, errs, List.range' a (k - a)⟩
      ∧ errs.length = k - 1 - a ∧ ev'.id = ev.id := by
  induction fuel generalizing a ev with
  | zero => omega
  | succ n ih =>
    rcases Nat.lt_or_ge (a + 1) k with hlt | hge
    · obtain ⟨m, hm⟩ := hf { ev with attempts := a + 1 } a hlt
      obtain ⟨ev', errs, heq, hlen, hid⟩ :=
        ih (a + 1) { ev with attempts := a + 1, last_error := some m } hlt (by omega)
      refine ⟨ev', (h.name ++ ": " ++ m) :: errs, ?_, by simp [hlen]; omega, hid⟩
      have hk : k - a = (k - (a + 1)) + 1 := by omega
      simp only [attemptLoop, hm, heq, hk, List.range'_succ]
    · have hak : a = k - 1 := by omega
      have hrun : h.run { ev with attempts := a + 1 } a = Except.ok () := by
        rw [hak]; exact hs _
      have hka : k - a = 1 := by omega
      refine ⟨{ ev with attempts := a + 1 }, [], ?_, by simp; omega, rfl⟩
      simp only [attemptLoop, hrun, hka, List.range'_succ, List.range'_zero]

/-- The retry loop invokes the handler at attempts `a, a+1, ...`: its
invocation list is a contiguous range starting at `a`, of positive length
whenever there is any fuel, and of length at most `fuel`. -/
theorem attemptLoop_invoked (h : Handler) (fuel a : Nat) (ev : WebhookEvent) :
    ∃ n, n ≤ fuel ∧ (1 ≤ fuel → 1 ≤ n) ∧
      (attemptLoop h fuel a ev).invoked = List.range' a n := by
  induction fuel generalizing a ev with
  | zero => exact ⟨0, Nat.le_refl 0, by omega, rfl⟩
  | succ m ih =>
    simp only [attemptLoop]
    cases h.run { ev with attempts := a + 1 } a with
    | ok _ =>
      exact ⟨1, by omega, by omega, by simp [List.range'_succ]⟩
    | error e =>
      obtain ⟨n, hn, _, hinv⟩ := ih (a + 1) { ev with attempts := a + 1, last_error := some e }
      refine ⟨n + 1, by omega, by omega, ?_⟩
      rw [List.range'_succ]
      simpa using hinv

/-- The outer handler loop never changes the event id. -/
theorem handlerLoop_ev_id (maxR : Nat) (hs : List Handler) (idx : Nat) (ev : WebhookEvent) :
    (handlerLoop maxR hs idx ev).ev.id = ev.id := by
  induction hs generalizing idx ev with
  | nil => rfl
  | cons h t ih =>
    simp only [handlerLoop]
    rw [ih]
    exact attemptLoop_ev_id h maxR 0 ev

/-- Unfolding of the handler loop for a single registered handler. -/
theorem handlerLoop_single (maxR : Nat) (h : Handler) (idx : Nat) (ev : WebhookEvent) :
    handlerLoop maxR [h] idx ev =
      ⟨(attemptLoop h maxR 0 ev).ev,
        (attemptLoop h maxR 0 ev).errors,
        if (attemptLoop h maxR 0 ev).ok then 0 else 1,
        (attemptLoop h maxR 0 ev).invoked.map (fun a => (idx, a))⟩ := by
  simp [handlerLoop]

/-- If every registered handler succeeds on its first attempt and at least
one attempt is configured, no handler exhausts its retries. -/
theorem handlerLoop_all_ok (maxR : Nat) (hMR : 0 < maxR) (hs : List Handler)
    (idx : Nat) (ev : WebhookEvent)
    (hok : ∀ h ∈ hs, ∀ e, h.run e 0 = Except.ok ()) :
    (handlerLoop maxR hs idx ev).exhausted = 0 := by
  induction hs generalizing idx ev with
  | nil => rfl
  | cons h t ih =>
    obtain ⟨m, rfl⟩ : ∃ m, maxR = m + 1 := ⟨maxR - 1, by omega⟩
    have h1 : attemptLoop h (m + 1) 0 ev = ⟨{ ev with attempts := 0 + 1 }, true, [], [0]⟩ := by
      simp only [attemptLoop, hok h (List.mem_cons_self h t) { ev with attempts := 0 + 1 }]
    have h2 := ih (idx + 1) { ev with attempts := 0 + 1 }
      (fun g hg e => hok g (List.mem_cons_of_mem h hg) e)
    simp [handlerLoop, h1, h2]

/-- The invocation trace of the handler loop decomposes into one contiguous
block of attempts per handler, in registration order; with at least one
attempt configured every handler's block is nonempty. -/
theorem handlerLoop_counts (maxR : Nat) (hMR : 0 < maxR) (hs : List Handler)
    (idx : Nat) (ev : WebhookEvent) :
    ∃ counts, counts.length = hs.length ∧
      (handlerLoop maxR hs idx ev).trace = orderedBlocks idx counts ∧
      ∀ c ∈ counts, 1 ≤ c ∧ c ≤ maxR := by
  induction hs generalizing idx ev with
  | nil => exact ⟨[], rfl, rfl, by simp⟩
  | cons h t ih =>
    obtain ⟨n, hn, hpos, hinv⟩ := attemptLoop_invoked h maxR 0 ev
    obtain ⟨counts, hlen, htr, hbound⟩ := ih (idx + 1) (attemptLoop h maxR 0 ev).ev
    refine ⟨n :: counts, by simp [hlen], ?_, ?_⟩
    · simp only [handlerLoop, orderedBlocks, hinv, htr, List.range_eq_range']
    · intro c hc
      rcases List.mem_cons.mp hc with rfl | hc
      · exact ⟨hpos hMR, hn⟩
      · exact hbound c hc


/-! ## Unfolding lemma for `_process_event` with registered handlers -/

/-- With at least one registered handler, `_process_event` appends one copy
of the finally-mutated event (with `processed_at` set) to `failed_events`
per exhausted handler, logs it, and reports `processed` exactly when no
attempt of any handler failed. -/
theorem processEvent_cons (p : Processor) (ev : WebhookEvent) (now : Nat)
    (hh : Handler) (ht : List Handler) (hreg : handlersFor p ev.type = hh :: ht) :
    processEvent p ev now =
      ⟨{ p with
          failed_events := p.failed_events ++
            List.replicate (handlerLoop p.max_retries (hh :: ht) 0 ev).exhausted
              { (handlerLoop p.max_retries (hh :: ht) 0 ev).ev with processed_at := some now },
          event_log := p.event_log ++
            [{ (handlerLoop p.max_retries (hh :: ht) 0 ev).ev with processed_at := some now }] },
        { status := if (handlerLoop p.max_retries (hh :: ht) 0 ev).errors.isEmpty
              then "processed" else "partial_failure",
          event_id := some ev.id,
          errors := (handlerLoop p.max_retries (hh :: ht) 0 ev).errors },
        (handlerLoop p.max_retries (hh :: ht) 0 ev).trace⟩ := by
  simp only [processEvent, hreg]
  by_cases hc : (handlerLoop p.max_retries (hh :: ht) 0 ev).errors.isEmpty = true
  · simp [hc, List.isEmpty_iff.mp hc]
  · simp [hc]

/-! ## Claim C2: retry success -/

/-- C2, counterexample.  With the default `max_retries = 3` and a single
handler that fails on attempt 1 and succeeds on attempt 2 (`k = 2 ≤ 3`),
processing returns status `partial_failure`, not `processed` as the claim
states (the source reports `partial_failure` whenever any attempt failed,
even if the handler eventually succeeded); the dead-letter set stays empty. -/
theorem C2_counterexample :
    (processEvent cProcFlaky2 cEv 5).result.status = "partial_failure" ∧
    "partial_failure" ≠ "processed" ∧
    (processEvent cProcFlaky2 cEv 5).state.failed_events = [] := by decide

/-- C2, amended.  If the single registered handler fails on attempts
`1 .. k-1` and succeeds on attempt `k ≤ max_retries`, processing returns
status `processed` when `k = 1` and `partial_failure` (carrying the
intermediate errors) when `k ≥ 2`; in both cases the event is not added to
the dead-letter set. -/
theorem C2_retry_success (p : Processor) (ev : WebhookEvent) (h : Handler) (k now : Nat)
    (hreg : handlersFor p ev.type = [h])
    (hk1 : 1 ≤ k) (hk2 : k ≤ p.max_retries)
    (hf : ∀ e a, a + 1 < k → ∃ m, h.run e a = Except.error m)
    (hs : ∀ e, h.run e (k - 1) = Except.ok ()) :
    (processEvent p ev now).result.status
        = (if k = 1 then "processed" else "partial_failure") ∧
    (processEvent p ev now).state.failed_events = p.failed_events := by
  obtain ⟨ev', errs, haeq, hlen, hid⟩ :=
    attemptLoop_succeeds h k hf hs p.max_retries 0 ev (by omega) (by omega)
  have hsingle : handlerLoop p.max_retries [h] 0 ev
      = ⟨ev', errs, 0, (List.range' 0 (k - 0)).map (fun a => (0, a))⟩ := by
    rw [handlerLoop_single, haeq]; rfl
  rw [processEvent_cons p ev now h [] hreg, hsingle]
  refine ⟨?_, by simp⟩
  by_cases hk : k = 1
  · have hnil : errs = [] := List.length_eq_zero.mp (by omega)
    simp [hnil, hk]
  · have hne : errs.isEmpty = false := by
      cases errs with
      | nil => simp at hlen; omega
      | cons x xs => rfl
    simp [hne, hk]

/-- C2, witness: the amended statement at `k = 2`, `max_retries = 3`. -/
theorem C2_retry_success_witness :
    (processEvent cProcFlaky2 cEv 7).result.status
        = (if 2 = 1 then "processed" else "partial_failure") ∧
    (processEvent cProcFlaky2 cEv 7).state.failed_events = cProcFlaky2.failed_events :=
  C2_retry_success cProcFlaky2 cEv (flaky 2) 2 7 rfl (by omega) (by decide)
    (fun e a ha => ⟨"transient", by
      have h0 : a = 0 := by omega
      subst h0
      rfl⟩)
    (fun _ => rfl)

/-! ## Claim C3: retry bound and dead-letter entry -/

/-- C3.  An event whose single registered handler fails on every attempt has
that handler invoked exactly `max_retries` times, and exactly one new entry
with the event's id is appended to the dead-letter set. -/
theorem C3_retry_bound (p : Processor) (ev : WebhookEvent) (h : Handler) (now : Nat)
    (hreg : handlersFor p ev.type = [h])
    (hf : ∀ e a, ∃ m, h.run e a = Except.error m) :
    (processEvent p ev now).trace.length = p.max_retries ∧
    countById (processEvent p ev now).state.failed_events ev.id
      = countById p.failed_events ev.id + 1 := by
  obtain ⟨ev', errs, haeq, hid, hlen⟩ := attemptLoop_fail h hf p.max_retries 0 ev
  have hsingle : handlerLoop p.max_retries [h] 0 ev
      = ⟨ev', errs, 1, (List.range' 0 p.max_retries).map (fun a => (0, a))⟩ := by
    rw [handlerLoop_single, haeq]; rfl
  rw [processEvent_cons p ev now h [] hreg, hsingle]
  constructor
  · simp
  · simp [countById, List.filter_append, hid]

/-- C3, witness: the default configuration (`max_retries = 3`) with an
always-failing handler: three invocations and one dead-letter entry. -/
theorem C3_retry_bound_witness :
    (processEvent cProcFail cEv 5).trace.length = cProcFail.max_retries ∧
    countById (processEvent cProcFail cEv 5).state.failed_events cEv.id
      = countById cProcFail.failed_events cEv.id + 1 :=
  C3_retry_bound cProcFail cEv (alwaysFail "boom") 5 rfl (fun _ _ => ⟨"boom", rfl⟩)


/-! ## Claim C6: registration and in-order independent execution -/

/-- Bucket lookup after a bucket append: the list for `t` gains `h` at the
end. -/
theorem find?_bucketAppend (m : List (String × List Handler)) (t : String) (h : Handler) :
    (match (bucketAppend m t h).find? (fun kv => kv.1 == t) with
      | some kv => kv.2
      | none => [])
      = (match m.find? (fun kv => kv.1 == t) with
          | some kv => kv.2
          | none => []) ++ [h] := by
  induction m with
  | nil => simp [bucketAppend, List.find?_cons]
  | cons kv rest ih =>
    by_cases hkv : (kv.1 == t) = true
    · simp [bucketAppend, if_pos hkv, List.find?_cons, hkv]
    · have hkv' : (kv.1 == t) = false := by
        cases hb : kv.1 == t with
        | true => exact absurd hb hkv
        | false => rfl
      simp [bucketAppend, if_neg hkv, List.find?_cons, hkv', ih]

/-- Registration appends: after `@processor.on(t)` the handler list for `t`
is the previous list with the new handler at the end. -/
theorem handlersFor_onRegister (p : Processor) (t : String) (h : Handler) :
    handlersFor (onRegister p t h) t = handlersFor p t ++ [h] := by
  unfold onRegister handlersFor
  exact find?_bucketAppend p.handlers t h

/-- C6.  Multiple handlers may be registered for one event type (registration
appends in order), and on an inbound event the invocation trace decomposes
into one nonempty contiguous block of attempts per registered handler, in
registration order — so an earlier handler's failure never prevents a later
handler's invocation. -/
theorem C6_registration_order (p : Processor) (ev : WebhookEvent) (now : Nat)
    (t : String) (h : Handler) (hMR : 0 < p.max_retries) :
    handlersFor (onRegister p t h) t = handlersFor p t ++ [h] ∧
    ∃ counts, counts.length = (handlersFor p ev.type).length ∧
      (processEvent p ev now).trace = orderedBlocks 0 counts ∧
      ∀ c ∈ counts, 1 ≤ c ∧ c ≤ p.max_retries := by
  refine ⟨handlersFor_onRegister p t h, ?_⟩
  cases hreg : handlersFor p ev.type with
  | nil =>
    refine ⟨[], rfl, ?_, by simp⟩
    simp [processEvent, hreg, orderedBlocks]
  | cons hh ht =>
    obtain ⟨counts, hlen, htr, hbound⟩ := handlerLoop_counts p.max_retries hMR (hh :: ht) 0 ev
    refine ⟨counts, by simp [hlen], ?_, hbound⟩
    rw [processEvent_cons p ev now hh ht hreg]
    exact htr

/-- C6, witness: one failing and one succeeding handler for `invoice.paid`:
the failing first handler runs its block of attempts, then the second handler
still runs. -/
theorem C6_registration_order_witness :
    handlersFor (onRegister cProcTwo "invoice.paid" alwaysOk) "invoice.paid"
        = handlersFor cProcTwo "invoice.paid" ++ [alwaysOk] ∧
    ∃ counts, counts.length = (handlersFor cProcTwo cEv.type).length ∧
      (processEvent cProcTwo cEv 9).trace = orderedBlocks 0 counts ∧
      ∀ c ∈ counts, 1 ≤ c ∧ c ≤ cProcTwo.max_retries :=
  C6_registration_order cProcTwo cEv 9 "invoice.paid" alwaysOk (by decide)

/-! ## Claim C9: exhausted events are logged and deduplicated -/

/-- C9.  An event whose registered handlers all exhaust their retries is
nevertheless appended to the event log with `processed_at` set, and any
subsequent delivery with the same id returns the `duplicate` status, leaves
the state unchanged and invokes no handler (empty trace). -/
theorem C9_failed_event_dedup (p : Processor) (ev : WebhookEvent) (now : Nat)
    (hh : Handler) (ht : List Handler)
    (hreg : handlersFor p ev.type = hh :: ht)
    (hf : ∀ h ∈ hh :: ht, ∀ e a, ∃ m, h.run e a = Except.error m) :
    (∃ ev', ev'.id = ev.id ∧ ev'.processed_at = some now ∧
        (processEvent p ev now).state.event_log = p.event_log ++ [ev']) ∧
    ∀ (ty da : String) (c n2 : Nat),
      process (processEvent p ev now).state (Delivery.parsed ev.id ty da c) n2
        = Except.ok ⟨(processEvent p ev now).state,
            { status := "duplicate", event_id := some ev.id }, []⟩ := by
  rw [processEvent_cons p ev now hh ht hreg]
  constructor
  · exact ⟨_, by simp [handlerLoop_ev_id], rfl, rfl⟩
  · intro ty da c n2
    have hid : ({ (handlerLoop p.max_retries (hh :: ht) 0 ev).ev with
        processed_at := some now } : WebhookEvent).id = ev.id := by
      simp [handlerLoop_ev_id]
    have hany : (p.event_log ++ [{ (handlerLoop p.max_retries (hh :: ht) 0 ev).ev with
        processed_at := some now }]).any (fun e => e.id == ev.id) = true := by
      simp [List.any_append]
      exact Or.inr (handlerLoop_ev_id p.max_retries (hh :: ht) 0 ev)
    simp [process, hany]

/-- C9, witness: the always-failing single handler; the second delivery of
`evt_1` is answered `duplicate` with no state change and no invocation. -/
theorem C9_failed_event_dedup_witness :
    (∃ ev', ev'.id = cEv.id ∧ ev'.processed_at = some 11 ∧
        (processEvent cProcFail cEv 11).state.event_log = cProcFail.event_log ++ [ev']) ∧
    process (processEvent cProcFail cEv 11).state (Delivery.parsed cEv.id "t" "d" 0) 12
      = Except.ok ⟨(processEvent cProcFail cEv 11).state,
          { status := "duplicate", event_id := some cEv.id }, []⟩ := by
  have hf : ∀ h ∈ [alwaysFail "boom"], ∀ (e : WebhookEvent) (a : Nat),
      ∃ m, h.run e a = Except.error m := by
    intro h hm e a
    rcases List.mem_cons.mp hm with rfl | hmem
    · exact ⟨"boom", rfl⟩
    · cases hmem
  exact ⟨(C9_failed_event_dedup cProcFail cEv 11 (alwaysFail "boom") [] rfl hf).1,
    (C9_failed_event_dedup cProcFail cEv 11 (alwaysFail "boom") [] rfl hf).2 "t" "d" 0 12⟩

/-! ## Claim C10: manual retry of an unknown id -/

/-- C10.  If no dead-letter entry carries the requested id, `retry_failed`
returns the `not_found` status and the processor state is exactly unchanged
(no pop, no reprocessing, no log or storage mutation). -/
theorem C10_retry_not_found (p : Processor) (eventId : String) (now : Nat)
    (hab : ∀ e ∈ p.failed_events, (e.id == eventId) = false) :
    retryFailed p eventId now = ⟨p, { status := "not_found" }, []⟩ := by
  have hfind : p.failed_events.find? (fun e => e.id == eventId) = none :=
    List.find?_eq_none.mpr (fun x hx => by simp [hab x hx])
  simp [retryFailed, hfind]

/-- C10, witness: retrying `evt_404` on a processor with an empty dead-letter
set. -/
theorem C10_retry_not_found_witness :
    retryFailed cProcEmpty "evt_404" 0 = ⟨cProcEmpty, { status := "not_found" }, []⟩ :=
  C10_retry_not_found cProcEmpty "evt_404" 0 (fun e he => by simp [cProcEmpty] at he)


/-! ## Claim C7: manual retry semantics -/

/-- If the handler succeeds at some attempt index in the remaining fuel
window — whatever event value it is shown — the retry loop ends in success
(it can only stop earlier, on an even earlier success). -/
theorem attemptLoop_succeeds_at (h : Handler) (fuel start : Nat) (ev : WebhookEvent)
    (hex : ∃ a, start ≤ a ∧ a < start + fuel ∧ ∀ e, h.run e a = Except.ok ()) :
    (attemptLoop h fuel start ev).ok = true := by
  induction fuel generalizing start ev with
  | zero => obtain ⟨a, h1, h2, _⟩ := hex; omega
  | succ n ih =>
    obtain ⟨a, h1, h2, hsucc⟩ := hex
    cases hr : h.run { ev with attempts := start + 1 } start with
    | ok u => simp [attemptLoop, hr]
    | error e =>
      have hne : start ≠ a := by
        intro heq
        have hok := hsucc { ev with attempts := start + 1 }
        rw [← heq, hr] at hok
        exact Except.noConfusion hok
      simp only [attemptLoop, hr]
      simpa using ih (start + 1) { ev with attempts := start + 1, last_error := some e }
        ⟨a, by omega, by omega, hsucc⟩

/-- Per-handler dead-letter accounting for an arbitrary mix of outcomes:
classify each registered handler as either succeeding at some attempt below
the bound (whatever event it is shown) or always raising; then the handler
loop appends to the dead-letter set exactly once per always-raising
handler. -/
theorem handlerLoop_exhausted_count (maxR : Nat) (hs : List Handler) (cs : List Bool)
    (idx : Nat) (ev : WebhookEvent)
    (hcls : List.Forall₂ (fun (h : Handler) (c : Bool) =>
        (c = true → ∃ a, a < maxR ∧ ∀ e, h.run e a = Except.ok ()) ∧
        (c = false → ∀ e a, ∃ m, h.run e a = Except.error m)) hs cs) :
    (handlerLoop maxR hs idx ev).exhausted = cs.count false := by
  induction hs generalizing cs idx ev with
  | nil =>
    cases hcls
    rfl
  | cons h t ih =>
    cases hcls with
    | cons hc hrest =>
      rename_i c cts
      cases c with
      | true =>
        obtain ⟨a, ha, hsucc⟩ := hc.1 rfl
        have hok : (attemptLoop h maxR 0 ev).ok = true :=
          attemptLoop_succeeds_at h maxR 0 ev ⟨a, by omega, by omega, hsucc⟩
        have hrec := ih cts (idx + 1) (attemptLoop h maxR 0 ev).ev hrest
        simp [handlerLoop, hok, hrec, List.count_cons]
      | false =>
        obtain ⟨ev', errs, heq, hid, hlen⟩ := attemptLoop_fail h (hc.2 rfl) maxR 0 ev
        have hrec := ih cts (idx + 1) ev' hrest
        simp [handlerLoop, heq, hrec, List.count_cons]
        omega

/-- C7.  For an event present in the dead-letter set, `retry_failed` pops
its first matching entry and re-runs `_process_event` on the event with
`attempts` reset to 0 and `last_error` cleared.
(1) Regardless of the retry's outcome — no hypothesis on handlers — the
popped entry is removed: the resulting dead-letter set is the original with
that first entry erased, extended only by re-adds of the retried event
itself.
(2) The re-run starts from attempt 0: the invocation trace decomposes into
per-handler blocks of attempts `0, 1, ...` in registration order.
(3) For any mixed classification of the registered handlers into ones that
succeed at some attempt within the bound and ones that always raise, the
event is re-added exactly once per always-raising (re-exhausting) handler —
in particular it is not re-added when every handler eventually succeeds,
e.g. one failing its first attempt and succeeding within the bound.
(4) The event reaching the re-run carries `attempts = 0` and
`last_error = none` (directly visible in the event log when no handler is
registered). -/
theorem C7_manual_retry (p : Processor) (eventId : String) (ev : WebhookEvent) (now : Nat)
    (hfind : p.failed_events.find? (fun e => e.id == eventId) = some ev)
    (hMR : 0 < p.max_retries) :
    (∃ ex ev', ev'.id = eventId ∧
        (retryFailed p eventId now).state.failed_events
          = p.failed_events.eraseP (fun e => e.id == eventId) ++ List.replicate ex ev') ∧
    (∃ counts, counts.length = (handlersFor p ev.type).length ∧
        (retryFailed p eventId now).trace = orderedBlocks 0 counts ∧
        ∀ c ∈ counts, 1 ≤ c ∧ c ≤ p.max_retries) ∧
    (∀ cs : List Bool,
        List.Forall₂ (fun (h : Handler) (c : Bool) =>
            (c = true → ∃ a, a < p.max_retries ∧ ∀ e, h.run e a = Except.ok ()) ∧
            (c = false → ∀ e a, ∃ m, h.run e a = Except.error m))
          (handlersFor p ev.type) cs →
        ∃ ev', ev'.id = eventId ∧
          (retryFailed p eventId now).state.failed_events
            = p.failed_events.eraseP (fun e => e.id == eventId)
              ++ List.replicate (cs.count false) ev') ∧
    (handlersFor p ev.type = [] →
        (retryFailed p eventId now).state.event_log
          = p.event_log ++ [{ ev with attempts := 0, last_error := none }]) := by
  have hid : ev.id = eventId := by
    have := List.find?_some hfind
    simpa using this
  have hrw : retryFailed p eventId now
      = processEvent
          { p with failed_events := p.failed_events.eraseP (fun e => e.id == eventId) }
          { ev with attempts := 0, last_error := none } now := by
    simp [retryFailed, hfind]
  refine ⟨?_, ?_, ?_, ?_⟩
  · rw [hrw]
    cases hreg : handlersFor p ev.type with
    | nil =>
      have hreg' : handlersFor
          { p with failed_events := p.failed_events.eraseP (fun e => e.id == eventId) }
          ({ ev with attempts := 0, last_error := none } : WebhookEvent).type = [] := hreg
      exact ⟨0, ev, hid, by simp [processEvent, hreg']⟩
    | cons hh ht =>
      have hreg' : handlersFor
          { p with failed_events := p.failed_events.eraseP (fun e => e.id == eventId) }
          ({ ev with attempts := 0, last_error := none } : WebhookEvent).type = hh :: ht := hreg
      rw [processEvent_cons _ _ now hh ht hreg']
      refine ⟨(handlerLoop p.max_retries (hh :: ht) 0
            { ev with attempts := 0, last_error := none }).exhausted,
          { (handlerLoop p.max_retries (hh :: ht) 0
              { ev with attempts := 0, last_error := none }).ev with
            processed_at := some now },
          ?_, by simp⟩
      simp [handlerLoop_ev_id, hid]
  · rw [hrw]
    cases hreg : handlersFor p ev.type with
    | nil =>
      have hreg' : handlersFor
          { p with failed_events := p.failed_events.eraseP (fun e => e.id == eventId) }
          ({ ev with attempts := 0, last_error := none } : WebhookEvent).type = [] := hreg
      refine ⟨[], by simp [hreg], ?_, by simp⟩
      simp [processEvent, hreg', orderedBlocks]
    | cons hh ht =>
      have hreg' : handlersFor
          { p with failed_events := p.failed_events.eraseP (fun e => e.id == eventId) }
          ({ ev with attempts := 0, last_error := none } : WebhookEvent).type = hh :: ht := hreg
      obtain ⟨counts, hlen, htr, hbound⟩ := handlerLoop_counts p.max_retries hMR (hh :: ht) 0
        { ev with attempts := 0, last_error := none }
      refine ⟨counts, by simp [hreg, hlen], ?_, hbound⟩
      rw [processEvent_cons _ _ now hh ht hreg']
      exact htr
  · intro cs hcls
    rw [hrw]
    cases hreg : handlersFor p ev.type with
    | nil =>
      rw [hreg] at hcls
      cases hcls
      have hreg' : handlersFor
          { p with failed_events := p.failed_events.eraseP (fun e => e.id == eventId) }
          ({ ev with attempts := 0, last_error := none } : WebhookEvent).type = [] := hreg
      exact ⟨ev, hid, by simp [processEvent, hreg']⟩
    | cons hh ht =>
      rw [hreg] at hcls
      have hreg' : handlersFor
          { p with failed_events := p.failed_events.eraseP (fun e => e.id == eventId) }
          ({ ev with attempts := 0, last_error := none } : WebhookEvent).type = hh :: ht := hreg
      have hex := handlerLoop_exhausted_count p.max_retries (hh :: ht) cs 0
        { ev with attempts := 0, last_error := none } hcls
      rw [processEvent_cons _ _ now hh ht hreg']
      refine ⟨{ (handlerLoop p.max_retries (hh :: ht) 0
            { ev with attempts := 0, last_error := none }).ev with
          processed_at := some now },
        ?_, by simp [hex]⟩
      simp [handlerLoop_ev_id, hid]
  · intro hreg
    rw [hrw]
    have hreg' : handlersFor
        { p with failed_events := p.failed_events.eraseP (fun e => e.id == eventId) }
        ({ ev with attempts := 0, last_error := none } : WebhookEvent).type = [] := hreg
    simp [processEvent, hreg']

/-- C7, witness: retrying dead-letter entry `evt_7` against a handler that
fails its first attempt but succeeds on the second, within the default
bound: the entry is removed and — the single handler being classified as
eventually succeeding (`cs = [true]`, zero always-raising handlers) — it is
re-added zero times. -/
theorem C7_manual_retry_witness :
    ∃ ev', ev'.id = "evt_7" ∧
      (retryFailed cProcRetryFlaky "evt_7" 20).state.failed_events
        = cProcRetryFlaky.failed_events.eraseP (fun e => e.id == "evt_7")
          ++ List.replicate (([true] : List Bool).count false) ev' :=
  (C7_manual_retry cProcRetryFlaky "evt_7" cFailedEv 20 rfl (by decide)).2.2.1 [true]
    (by
      have hfl : handlersFor cProcRetryFlaky cFailedEv.type = [flaky 2] := rfl
      rw [hfl]
      refine List.Forall₂.cons ⟨?_, ?_⟩ List.Forall₂.nil
      · intro _
        exact ⟨1, by decide, fun e => rfl⟩
      · intro hfalse
        exact Bool.noConfusion hfalse)


/-! ## Storage lemma -/

/-- Reading a key immediately after writing it yields the written value. -/
theorem sget_sput_self (st : Storage) (k : String) (v : SVal) :
    sget (sput st k v) k = some v := by
  simp [sget, sput, List.find?_cons]

/-! ## Claim C1: at-most-once execution / already_processed -/

/-- C1, counterexample.  With a handler that raises, the first delivery of
`evt_1` leaves no `event:{id}` ledger entry (only `failed:{id}`), so the
second delivery of the same id is not detected as a duplicate: the handler is
invoked again (two invocations in total across the two deliveries) and the
second delivery does not return `already_processed`. -/
theorem C1_counterexample :
    countHandlerCalls (processWebhook rRouterFail (RVerify.ok rEv) 0 []).trace
        + countHandlerCalls
            (processWebhook rRouterFail (RVerify.ok rEv) 1
              (processWebhook rRouterFail (RVerify.ok rEv) 0 []).storage).trace = 2
    ∧ (processWebhook rRouterFail (RVerify.ok rEv) 1
        (processWebhook rRouterFail (RVerify.ok rEv) 0 []).storage).outcome
        ≠ Except.ok (RResult.alreadyProcessed "evt_1") := by decide

/-- C1, amended.  Provided the first delivery returned status `processed`
(its handler did not raise), a second delivery of the same event id is
detected as a duplicate: it reads only the ledger key, invokes no handler,
leaves the storage unchanged and returns `already_processed` with that id. -/
theorem C1_idempotent_after_success (r : Router) (ev : SEvent) (st : Storage) (n1 n2 : Nat)
    (hp : ∃ res, (processWebhook r (RVerify.ok ev) n1 st).outcome
        = Except.ok (RResult.processed ev.id res)) :
    processWebhook r (RVerify.ok ev) n2 (processWebhook r (RVerify.ok ev) n1 st).storage
      = ⟨(processWebhook r (RVerify.ok ev) n1 st).storage,
          [Action.get ("event:" ++ ev.id)], Except.ok (RResult.alreadyProcessed ev.id)⟩ := by
  obtain ⟨res, hres⟩ := hp
  cases hg : sget st ("event:" ++ ev.id) with
  | some v =>
    simp only [processWebhook, hg] at hres
    simp at hres
  | none =>
    cases hf : r.handlers.find? (fun kv => kv.1 == ev.type) with
    | none =>
      simp only [processWebhook, hg, hf] at hres
      simp at hres
    | some kv =>
      cases ho : (kv.2.handle ev st).outcome with
      | error e =>
        simp only [processWebhook, hg, hf, ho] at hres
        simp at hres
      | ok res0 =>
        set st1 := (processWebhook r (RVerify.ok ev) n1 st).storage with hst1
        have hst : st1 = sput (kv.2.handle ev st).storage ("event:" ++ ev.id)
            (SVal.processedRecord ev.id ev.type n1 true res0) := by
          rw [hst1]
          simp only [processWebhook, hg, hf, ho]
        have hget2 : sget st1 ("event:" ++ ev.id)
            = some (SVal.processedRecord ev.id ev.type n1 true res0) := by
          rw [hst]
          exact sget_sput_self _ _ _
        simp only [processWebhook, hget2]

/-- C1, witness: with a succeeding handler, delivering `evt_1` and then
redelivering it returns `already_processed` with no handler invocation. -/
theorem C1_idempotent_after_success_witness :
    processWebhook rRouterOk (RVerify.ok rEv) 1
        (processWebhook rRouterOk (RVerify.ok rEv) 0 []).storage
      = ⟨(processWebhook rRouterOk (RVerify.ok rEv) 0 []).storage,
          [Action.get ("event:" ++ rEv.id)], Except.ok (RResult.alreadyProcessed rEv.id)⟩ :=
  C1_idempotent_after_success rRouterOk rEv [] 0 1 ⟨"handled", by decide⟩

/-! ## Claim C4: propagation policy -/

/-- C4, counterexample.  A raising handler makes `EventRouter.process_webhook`
itself raise (`Except.error "boom"`) even though signature verification
succeeded and every ledger write succeeded (no `event:{id}` entry involved):
an ordinary handler-level failure does propagate to the caller, contrary to
the claim. -/
theorem C4_counterexample :
    (processWebhook rRouterFail (RVerify.ok rEv) 0 []).outcome = Except.error "boom" ∧
    sget (processWebhook rRouterFail (RVerify.ok rEv) 0 []).storage ("event:" ++ rEv.id)
      = none := by decide

/-- C4, amended.  The `WebhookProcessor` contains handler-level failures:
once a delivery is verified and parsed, `process` never raises, and a single
always-failing handler is reported structurally as `partial_failure`.  The
`EventRouter`, in contrast, re-raises a handler exception to its caller after
writing the `failed:{id}` record. -/
theorem C4_propagation_policy :
    (∀ (p : Processor) (eid ty da : String) (c now : Nat),
        ∃ s, process p (Delivery.parsed eid ty da c) now = Except.ok s) ∧
    (∀ (p : Processor) (ev : WebhookEvent) (h : Handler) (now : Nat),
        handlersFor p ev.type = [h] → 0 < p.max_retries →
        (∀ e a, ∃ m, h.run e a = Except.error m) →
        (processEvent p ev now).result.status = "partial_failure") ∧
    (∀ (r : Router) (ev : SEvent) (st : Storage) (now : Nat) (kv : String × RHandler)
        (e : String),
        sget st ("event:" ++ ev.id) = none →
        r.handlers.find? (fun x => x.1 == ev.type) = some kv →
        (kv.2.handle ev st).outcome = Except.error e →
        (processWebhook r (RVerify.ok ev) now st).outcome = Except.error e ∧
        sget (processWebhook r (RVerify.ok ev) now st).storage ("failed:" ++ ev.id)
          = some (SVal.failedRecord ev.id ev.type e now)) := by
  refine ⟨?_, ?_, ?_⟩
  · intro p eid ty da c now
    simp only [process]
    split
    · exact ⟨_, rfl⟩
    · exact ⟨_, rfl⟩
  · intro p ev h now hreg hMR hf
    obtain ⟨ev', errs, haeq, hid, hlen⟩ := attemptLoop_fail h hf p.max_retries 0 ev
    have hsingle : handlerLoop p.max_retries [h] 0 ev
        = ⟨ev', errs, 1, (List.range' 0 p.max_retries).map (fun a => (0, a))⟩ := by
      rw [handlerLoop_single, haeq]; rfl
    rw [processEvent_cons p ev now h [] hreg, hsingle]
    have hne : errs.isEmpty = false := by
      cases errs with
      | nil => simp at hlen; omega
      | cons x xs => rfl
    simp [hne]
  · intro r ev st now kv e hg hf ho
    constructor
    · simp only [processWebhook, hg, hf, ho]
    · simp only [processWebhook, hg, hf, ho]
      exact sget_sput_self _ _ _

/-- C4, witness: the amended statement at concrete inputs — the processor
reports `partial_failure` for an exhausted handler, while the router
propagates the handler's exception after writing the failure record. -/
theorem C4_propagation_policy_witness :
    (processEvent cProcFail cEv 3).result.status = "partial_failure" ∧
    (processWebhook rRouterFail (RVerify.ok rEv) 4 []).outcome = Except.error "boom" ∧
    sget (processWebhook rRouterFail (RVerify.ok rEv) 4 []).storage ("failed:" ++ rEv.id)
      = some (SVal.failedRecord rEv.id rEv.type "boom" 4) := by
  have h2 := C4_propagation_policy.2.1 cProcFail cEv (alwaysFail "boom") 3 rfl (by decide)
    (fun _ _ => ⟨"boom", rfl⟩)
  have h3 := C4_propagation_policy.2.2 rRouterFail rEv [] 4
    ("charge.dispute.created", rFail) "boom" rfl rfl rfl
  exact ⟨h2, h3.1, h3.2⟩

/-! ## Claim C5: verification failures -/

/-- C5, counterexample.  In the `WebhookProcessor`, a request with a bad
signature raises `HTTPException(400, "Invalid signature")` — not the
401 the claim states (and a malformed payload is indistinguishable from a
bad signature there, since `verify_signature` catches both). -/
theorem C5_counterexample :
    process cProcEmpty Delivery.sigFail 0
        = Except.error (HttpError.httpException 400 "Invalid signature") ∧
    HttpError.httpException 400 "Invalid signature"
        ≠ HttpError.httpException 401 "Invalid signature" :=
  ⟨rfl, by decide⟩

/-- C5, amended.  The `EventRouter` distinguishes the two verification
failures (malformed payload → status-400 dict, bad signature → status-401
dict) and touches no storage in either case; the `WebhookProcessor` instead
raises HTTP 400 both for a failed signature check and for malformed JSON,
likewise without any ledger write (it raises before touching any state). -/
theorem C5_verification_failures :
    (∀ (r : Router) (st : Storage) (now : Nat),
        processWebhook r RVerify.invalidPayload now st
            = ⟨st, [], Except.ok (RResult.errResp "Invalid payload" 400)⟩ ∧
        processWebhook r RVerify.invalidSignature now st
            = ⟨st, [], Except.ok (RResult.errResp "Invalid signature" 401)⟩) ∧
    (∀ (p : Processor) (now : Nat),
        process p Delivery.sigFail now
            = Except.error (HttpError.httpException 400 "Invalid signature") ∧
        process p Delivery.badJson now
            = Except.error (HttpError.httpException 400 "Invalid JSON")) :=
  ⟨fun _ _ _ => ⟨rfl, rfl⟩, fun _ _ => ⟨rfl, rfl⟩⟩

/-! ## Claim C8: dispute persistence ordering -/

/-- C8.  For every dispute-created event the dispute record is written under
`dispute:{id}` whether or not a notification service is configured and
whether or not the admin alert raises, and the write is the first action of
the handler — strictly before any alert dispatch. -/
theorem C8_dispute_persist_before_alert (notif : NotifCfg) (d : Dispute) (st : Storage) :
    sget (handleDisputeCreated notif d st).storage ("dispute:" ++ d.id)
        = some (SVal.disputeRecord d.charge d.amount d.reason d.status d.evidence_due_by) ∧
    ((handleDisputeCreated notif d st).trace = [Action.put ("dispute:" ++ d.id)] ∨
      (handleDisputeCreated notif d st).trace
        = [Action.put ("dispute:" ++ d.id), Action.adminAlert]) := by
  cases notif with
  | noService => exact ⟨sget_sput_self _ _ _, Or.inl rfl⟩
  | service o =>
    cases o with
    | ok u => exact ⟨sget_sput_self _ _ _, Or.inr rfl⟩
    | error e => exact ⟨sget_sput_self _ _ _, Or.inr rfl⟩

end RoadPay
